import Mathlib

/-!
Shallow embedding of the core of `src/app.service.ts` (pump.fun backend):
the incremental ledger indexer (`eventsTrackingLoop`, `processTradeEvents`,
`bootstrap`-level config checks) and the daily winner aggregator
(`getDailyWinnerTokenId`).

Machine integers of the source (block numbers, timestamps, token amounts held
as JS `bigint`) are modelled as `Nat`: all of them are non-negative and the
source performs no overflowing fixed-width arithmetic on them (amounts are
arbitrary-precision `bigint`s, block numbers are far below 2^53).
Database-generated row ids are abstracted: a `Token`'s `id` is its unique
on-chain address.  JavaScript truthiness of config strings is modelled
explicitly (`undefined` or `""` is falsy).
-/

namespace PumpFun

/-- Trade direction, mirroring `TradeType` from `entities/trade.entity`. -/
inductive TradeType where
  | buy
  | sell
deriving DecidableEq, Repr

/-- Token row as persisted by the indexer (`Token` entity): the fields that
`app.service.ts` writes in `dataSource.manager.insert(Token, ...)`.  The
creator reference `user` is `none` when the transaction sender did not
resolve to a stored `UserAccount`. -/
structure Token where
  id : String
  address : String
  name : String
  symbol : String
  txnHash : String
  blockNumber : Nat
  timestamp : Nat
  user : Option String
deriving DecidableEq, Repr

/-- Trade row as persisted by `processTradeEvents` (`Trade` entity).
`createdAt` is the persistence timestamp the database assigns on insert;
the daily winner aggregator filters on it. -/
structure Trade where
  type : TradeType
  txnHash : String
  blockNumber : Nat
  tokenId : String
  amountIn : Nat
  amountOut : Nat
  fee : Nat
  timestamp : Nat
  createdAt : Nat
deriving DecidableEq, Repr

/-- Persistent store contents the core reads and writes: the singleton
`IndexerState` row (checkpoint block number, `none` before bootstrap),
the `Token` and `Trade` tables, and the `UserAccount` addresses
(stored lowercased). -/
structure Store where
  indexerState : Option Nat
  tokens : List Token
  trades : List Trade
  users : List String
deriving DecidableEq, Repr

/-- Lookup of `getTokenByAddress`: `findOne(Token, { where: { address } })`. -/
def findTokenByAddress (tokens : List Token) (address : String) : Option Token :=
  tokens.find? (fun t => t.address == address)

/-! ### JavaScript stable sort

`Array.prototype.sort` (stable since ES2019) applied to a comparator of the
shape `c(a,b) = P(a,b) ? -1 : 1` places `a` before `b` exactly when `P(a,b)`
holds, and on a tie of `P` (both directions false is impossible for such a
comparator; `c` returns `1`, i.e. "a after b") moves `a` after `b`.  A stable
insertion sort with `le a b := P a b` realises exactly this order. -/

/-- Insert `a` into `l`, before the first element `b` with `le a b`. -/
def sortInsert (le : α → α → Bool) (a : α) : List α → List α
  | [] => [a]
  | b :: bs => if le a b then a :: b :: bs else b :: sortInsert le a bs

/-- Stable insertion sort modelling `Array.prototype.sort` with a two-valued
comparator (see above). -/
def stableSort (le : α → α → Bool) : List α → List α
  | [] => []
  | a :: as => sortInsert le a (stableSort le as)

/-! ### getTokens (the query the aggregator uses)

`getTokens({ offset: 0, limit: 1000 })` orders by `timestamp DESC` and takes
the first `limit` rows; no `search` filter is passed by the aggregator. -/

/-- Page of tokens returned by `getTokens` for the aggregator: tokens sorted
by `timestamp` descending, first `limit` rows (offset 0). -/
def getTokensPage (tokens : List Token) (limit : Nat) : List Token :=
  (stableSort (fun a b => decide (b.timestamp ≤ a.timestamp)) tokens).take limit

/-! ### Daily winner aggregator (`getDailyWinnerTokenId`) -/

/-- Sum over a token's trades whose `createdAt` lies in the inclusive window
`[dateStart, dateEnd]` (TypeORM `Between`), of `amountOut`, as an exact
integer — the JS source accumulates with `BigInt`, never floating point:
`tokenSwaps.reduce((acc, item) => acc += BigInt(item.amountOut), 0n)`. -/
def windowAmountOutSum (trades : List Trade) (tokenId : String)
    (dateStart dateEnd : Nat) : Nat :=
  (trades.filter (fun tr =>
      tr.tokenId == tokenId && decide (dateStart ≤ tr.createdAt)
        && decide (tr.createdAt ≤ dateEnd))).foldl
    (fun acc tr => acc + tr.amountOut) 0

/-- JS `Map.set`: overwrite in place when the key exists, else append. -/
def mapSet (m : List (String × Nat)) (k : String) (v : Nat) :
    List (String × Nat) :=
  if m.any (fun p => p.1 == k) then
    m.map (fun p => if p.1 == k then (k, v) else p)
  else
    m ++ [(k, v)]

/-- Builds `tokensMap`: one `(token.id, summed amountOut)` entry per token of
the page, in iteration order. -/
def buildTokensMap (tokens : List Token) (trades : List Trade)
    (dateStart dateEnd : Nat) : List (String × Nat) :=
  tokens.foldl
    (fun m t => mapSet m t.id (windowAmountOutSum trades t.id dateStart dateEnd)) []

/-- Comparator of the source, `aValue - bValue > 0 ? -1 : 1` on `bigint`
sums: entry `a` sorts before `b` exactly when `a`'s sum is strictly larger. -/
def winnerLe (a b : String × Nat) : Bool :=
  decide (b.2 < a.2)

/-- Winner selection on an already-fetched token page: build the map, sort it
descending by summed volume, return the head's key, or `null` when the
sorted array is empty. -/
def dailyWinnerOfPage (page : List Token) (trades : List Trade)
    (dateStart dateEnd : Nat) : Option String :=
  match stableSort winnerLe (buildTokensMap page trades dateStart dateEnd) with
  | [] => none
  | (winnerTokenId, _) :: _ => some winnerTokenId

/-- Model of `getDailyWinnerTokenId`: the previous-day window is abstracted
as the inclusive interval `[dateStart, dateEnd]`; the token page is
`getTokens({ offset: 0, limit: 1000 })`. -/
def getDailyWinnerTokenId (store : Store) (dateStart dateEnd : Nat) :
    Option String :=
  dailyWinnerOfPage (getTokensPage store.tokens 1000) store.trades dateStart dateEnd

/-! ### Startup configuration checks (constructor of `AppService`)

The constructor reads `RPC_URL`, `PUMP_FUN_CONTRACT_ADDRESS` and
`PUMP_FUN_INITIAL_BLOCK_NUMBER` from the config service ( `undefined` when
unset) and guards with JS truthiness: `if(!contractAddress) exit(1)` and
`if(!initialBlockNumber) exit(1)`.  `rpcUrl` is logged and handed to the
`Web3` constructor without any guard. -/

/-- Startup configuration values as read by the constructor; `none` models an
unset environment variable. -/
structure AppConfig where
  rpcUrl : Option String
  pumpFunContractAddress : Option String
  pumpFunInitialBlockNumber : Option String
deriving DecidableEq, Repr

/-- JS truthiness of a possibly-unset config string: `undefined` and `""` are
falsy, every other string is truthy. -/
def truthyStr : Option String → Bool
  | none => false
  | some s => !(s == "")

/-- Constructor guard sequence: returns the name of the first missing config
value that makes the process `exit(1)`, or `none` when startup proceeds to
indexing.  Mirrors the two `if(!...) process.exit(1)` guards; there is no
guard on `RPC_URL`. -/
def constructorCheck (cfg : AppConfig) : Option String :=
  if !truthyStr cfg.pumpFunContractAddress then
    some "PUMP_FUN_CONTRACT_ADDRESS"
  else if !truthyStr cfg.pumpFunInitialBlockNumber then
    some "PUMP_FUN_INITIAL_BLOCK_NUMBER"
  else
    none

/-! ### Ledger source and event logs -/

/-- Payload of a `TokenCreated(address,uint256)` event log as read by the
loop: transaction hash, block number, `returnValues.token`,
`returnValues.timestamp`. -/
structure CreatedEvent where
  transactionHash : String
  blockNumber : Nat
  token : String
  timestamp : Nat
deriving DecidableEq, Repr

/-- Payload of a `TokenBuy`/`TokenSell` swap event log as read by
`processTradeEvents`. -/
structure SwapEvent where
  transactionHash : String
  blockNumber : Nat
  token : String
  amount0In : Nat
  amount0Out : Nat
  fee : Nat
  timestamp : Nat
deriving DecidableEq, Repr

/-- Read-only ledger gateway (web3): current chain height, the three
`getPastEvents` queries by inclusive block range, transaction sender lookup
by hash, and the `name()`/`symbol()` contract reads. -/
structure Chain where
  blockNumber : Nat
  tokenCreatedEvents : Nat → Nat → List CreatedEvent
  tokenBuyEvents : Nat → Nat → List SwapEvent
  tokenSellEvents : Nat → Nat → List SwapEvent
  txFrom : String → String
  tokenNameOf : String → String
  tokenSymbolOf : String → String

/-- Fixed batch cap `blocksIndexingRange` of `AppService`. -/
def blocksIndexingRange : Nat := 1000

/-! ### Event classification -/

/-- Classification of one `TokenCreated` log (body of the `for` loop over
`tokenCreatedEvents`): resolve the transaction sender, look the sender up in
`UserAccount` by lowercased address (`none` when absent — the insert still
proceeds), read `name`/`symbol` from the token contract, assemble the Token
row.  The database-generated row id is abstracted by the token's unique
address. -/
def processTokenCreated (chain : Chain) (users : List String)
    (ev : CreatedEvent) : Token :=
  let userAddress := chain.txFrom ev.transactionHash
  let user := users.find? (fun a => a == userAddress.toLower)
  { id := ev.token
    address := ev.token
    name := chain.tokenNameOf ev.token
    symbol := chain.tokenSymbolOf ev.token
    txnHash := ev.transactionHash
    blockNumber := ev.blockNumber
    timestamp := ev.timestamp
    user := user }

/-- Trade row built by `processTradeEvents` for one swap event resolved to
`tok`; `now` is the database insert timestamp (`createdAt`). -/
def mkTrade (ty : TradeType) (ev : SwapEvent) (tok : Token) (now : Nat) : Trade :=
  { type := ty
    txnHash := ev.transactionHash
    blockNumber := ev.blockNumber
    tokenId := tok.id
    amountIn := ev.amount0In
    amountOut := ev.amount0Out
    fee := ev.fee
    timestamp := ev.timestamp
    createdAt := now }

/-- Model of `processTradeEvents`: walk the events in order; for each, resolve
the token by address; on failure the source logs and calls `process.exit(1)`
— modelled by the second component `true`, with the first component holding
the trades persisted before the failing event.  On success all trades are
returned with exit flag `false`. -/
def processTradeEvents (tokens : List Token) (events : List SwapEvent)
    (ty : TradeType) (now : Nat) : List Trade × Bool :=
  match events with
  | [] => ([], false)
  | ev :: rest =>
    match findTokenByAddress tokens ev.token with
    | none => ([], true)
    | some tok =>
      let r := processTradeEvents tokens rest ty now
      (mkTrade ty ev tok now :: r.1, r.2)

/-- Whether a swap event's token address resolves against a token table. -/
def swapResolves (tokens : List Token) (ev : SwapEvent) : Bool :=
  (findTokenByAddress tokens ev.token).isSome

/-! ### One iteration of `eventsTrackingLoop` -/

/-- Persisted row of the iteration's write trace, in insert order. -/
inductive WriteRec where
  | tokenRow (t : Token)
  | tradeRow (tr : Trade)
deriving DecidableEq, Repr

/-- Phase of a persisted row: token creations (0) precede buys (1) precede
sells (2) within a batch. -/
def phaseRank : WriteRec → Nat
  | .tokenRow _ => 0
  | .tradeRow tr => match tr.type with
    | .buy => 1
    | .sell => 2

/-- Inputs of one loop iteration: store and ledger state, fault injection for
the two failure points the source handles (a thrown error anywhere in the
`try` block — network failure — and a failing checkpoint write), and the
database clock for `createdAt`. -/
structure IterInput where
  store : Store
  chain : Chain
  networkFails : Bool
  checkpointWriteFails : Bool
  now : Nat

/-- Observable outcome of one loop iteration.  `writes` is the persisted-row
trace in insert order; `scanned` the inclusive range handed to
`getPastEvents` (or `none` when no fetch happened); `delaySec` the
`setTimeout` delay taken (0, 5 or 30); `exited` the `process.exit` code when
the process terminated; `tradeExit` marks the mid-iteration
`process.exit(1)` of `processTradeEvents`; `writeAttempted` whether
`updateLastIndexerBlockNumber` was invoked, and `writtenBlock` the value
passed to it. -/
structure IterResult where
  store : Store
  writes : List WriteRec
  scanned : Option (Nat × Nat)
  delaySec : Nat
  exited : Option Nat
  tradeExit : Bool
  writeAttempted : Bool
  writtenBlock : Option Nat

/-- Epilogue of every non-exited iteration: the second `try` block, which
always calls `updateLastIndexerBlockNumber(toBlock)`.  That update does
`findOne(IndexerState)` then mutates and saves; a missing row or a failing
save throws, is caught, and the process exits with code 1 (checkpoint not
advanced).  On success the singleton checkpoint row becomes `toBlock`. -/
def finishIteration (inp : IterInput) (store : Store) (writes : List WriteRec)
    (scanned : Option (Nat × Nat)) (delaySec : Nat) (toBlock : Nat) :
    IterResult :=
  if inp.checkpointWriteFails || store.indexerState.isNone then
    { store := store, writes := writes, scanned := scanned,
      delaySec := delaySec, exited := some 1, tradeExit := false,
      writeAttempted := true, writtenBlock := some toBlock }
  else
    { store := { store with indexerState := some toBlock }, writes := writes,
      scanned := scanned, delaySec := delaySec, exited := none,
      tradeExit := false, writeAttempted := true, writtenBlock := some toBlock }

/-- Mid-iteration `process.exit(1)` from `processTradeEvents` (unknown token
address on a swap event): the checkpoint write is never reached. -/
def tradeExitResult (store : Store) (writes : List WriteRec)
    (scanned : Option (Nat × Nat)) : IterResult :=
  { store := store, writes := writes, scanned := scanned, delaySec := 0,
    exited := some 1, tradeExit := true, writeAttempted := false,
    writtenBlock := none }

/-- Token table visible to `processTradeEvents` for the batch over
`[fromBlock, toBlock]`: the stored tokens plus the Token rows inserted for
this batch's `TokenCreated` events, which precede trade processing. -/
def batchTokens (inp : IterInput) (fromBlock toBlock : Nat) : List Token :=
  inp.store.tokens
    ++ (inp.chain.tokenCreatedEvents fromBlock toBlock).map
      (processTokenCreated inp.chain inp.store.users)

/-- Token-row writes of the batch over `[fromBlock, toBlock]`: one insert per
`TokenCreated` event, in log order, before any trade is processed. -/
def tokenWritesOf (inp : IterInput) (fromBlock toBlock : Nat) : List WriteRec :=
  ((inp.chain.tokenCreatedEvents fromBlock toBlock).map
    (processTokenCreated inp.chain inp.store.users)).map WriteRec.tokenRow

/-- Result of `processTradeEvents(buyEvents, TradeType.buy)` for the batch. -/
def buysOf (inp : IterInput) (fromBlock toBlock : Nat) : List Trade × Bool :=
  processTradeEvents (batchTokens inp fromBlock toBlock)
    (inp.chain.tokenBuyEvents fromBlock toBlock) TradeType.buy inp.now

/-- Result of `processTradeEvents(sellEvents, TradeType.sell)` for the batch. -/
def sellsOf (inp : IterInput) (fromBlock toBlock : Nat) : List Trade × Bool :=
  processTradeEvents (batchTokens inp fromBlock toBlock)
    (inp.chain.tokenSellEvents fromBlock toBlock) TradeType.sell inp.now

/-- Fetch-and-persist phase of the loop body for the already-computed range
`[fromBlock, toBlock]`: fetch the three event sets (`getPastEvents` for the
`TokenCreated`, `TokenBuy` and `TokenSell` topics), insert Token rows for
the creations, then process buys, then sells; an unknown token address on a
swap event exits the process mid-batch. -/
def fetchAndPersist (inp : IterInput) (fromBlock toBlock : Nat) : IterResult :=
  let tokens' := batchTokens inp fromBlock toBlock
  let tokenWrites := tokenWritesOf inp fromBlock toBlock
  let buys := buysOf inp fromBlock toBlock
  if buys.2 then
    let storeB := { inp.store with tokens := tokens', trades := inp.store.trades ++ buys.1 }
    tradeExitResult storeB (tokenWrites ++ buys.1.map WriteRec.tradeRow)
      (some (fromBlock, toBlock))
  else
    let sells := sellsOf inp fromBlock toBlock
    let storeS := { inp.store with tokens := tokens', trades := inp.store.trades ++ buys.1 ++ sells.1 }
    let allWrites := tokenWrites ++ buys.1.map WriteRec.tradeRow ++ sells.1.map WriteRec.tradeRow
    if sells.2 then
      tradeExitResult storeS allWrites (some (fromBlock, toBlock))
    else
      finishIteration inp storeS allWrites (some (fromBlock, toBlock)) 0 toBlock

/-- One pass of `eventsTrackingLoop` (the body up to, and including, the
checkpoint write; the tail call that reschedules the next pass is the loop
itself).  Follows the source line by line: derive `fromBlock` from the
checkpoint, clamp `toBlock` to the chain tip, stall on `toBlock - fromBlock
< 1` with a 5s delay, otherwise fetch and persist the range, and on a thrown
error reset `toBlock` to `fromBlockParam - 1` with a 30s delay.  In the
guard `toBlock - fromBlock >= 1`, truncated `Nat` subtraction agrees with
the source's JS arithmetic: a negative JS difference and a truncated-to-0
difference both fail `>= 1`. -/
def eventsTrackingIteration (inp : IterInput) : IterResult :=
  let lastIndexedBlockNumber := inp.store.indexerState.getD 0
  let fromBlockParam := lastIndexedBlockNumber + 1
  let fromBlock := fromBlockParam
  if inp.networkFails then
    finishIteration inp inp.store [] none 30 (fromBlockParam - 1)
  else
    let blockchainBlockNumber := inp.chain.blockNumber
    let toBlock0 := fromBlock + blocksIndexingRange - 1
    let toBlock :=
      if toBlock0 > blockchainBlockNumber then blockchainBlockNumber else toBlock0
    if 1 ≤ toBlock - fromBlock then
      fetchAndPersist inp fromBlock toBlock
    else
      finishIteration inp inp.store [] none 5 (fromBlockParam - 1)

/-! ### Concrete fixtures for witnesses and counterexamples -/

/-- Fixture token with id `t1`. -/
def sampleToken1 : Token :=
  { id := "t1", address := "0xaaa1", name := "Alpha", symbol := "ALP",
    txnHash := "0xh1", blockNumber := 5, timestamp := 10, user := none }

/-- Fixture token with id `t2`. -/
def sampleToken2 : Token :=
  { id := "t2", address := "0xaaa2", name := "Beta", symbol := "BET",
    txnHash := "0xh2", blockNumber := 6, timestamp := 11, user := none }

/-- Fixture trade of `amountOut = amt` for token `tid`, persisted at
`createdAt = at_`. -/
def sampleTrade (tid : String) (amt : Nat) (at_ : Nat) : Trade :=
  { type := TradeType.buy, txnHash := "0xt", blockNumber := 1, tokenId := tid,
    amountIn := 0, amountOut := amt, fee := 0, timestamp := 0, createdAt := at_ }

/-- Fixture store holding only a checkpoint at height `h`. -/
def sampleStoreAt (h : Nat) : Store :=
  { indexerState := some h, tokens := [], trades := [], users := [] }

/-- Fixture chain at tip `tip` with no events. -/
def quietChain (tip : Nat) : Chain :=
  { blockNumber := tip
    tokenCreatedEvents := fun _ _ => []
    tokenBuyEvents := fun _ _ => []
    tokenSellEvents := fun _ _ => []
    txFrom := fun _ => "0xSender"
    tokenNameOf := fun _ => "Name"
    tokenSymbolOf := fun _ => "SYM" }

/-- Fixture swap event whose token address is not in any fixture store. -/
def unknownTokenSwap : SwapEvent :=
  { transactionHash := "0xtx", blockNumber := 101, token := "0xdead",
    amount0In := 1, amount0Out := 2, fee := 0, timestamp := 99 }

/-- Fixture chain at tip 150 whose only event is a buy of an unknown token. -/
def unknownTokenBuyChain : Chain :=
  { quietChain 150 with tokenBuyEvents := fun _ _ => [unknownTokenSwap] }

/-- Fixture `TokenCreated` event. -/
def sampleCreatedEvent : CreatedEvent :=
  { transactionHash := "0xct", blockNumber := 102, token := "0xnew", timestamp := 55 }

/-- Fixture chain at tip 150 whose only event is one token creation. -/
def createdTokenChain : Chain :=
  { quietChain 150 with tokenCreatedEvents := fun _ _ => [sampleCreatedEvent] }

/-- Fixture store for the two-token aggregation witness: token `t1` out-sums
token `t2` inside the window `[0, 10]`. -/
def winnerStore : Store :=
  { indexerState := none, tokens := [sampleToken1, sampleToken2],
    trades := [sampleTrade "t1" 11 3, sampleTrade "t2" 9 3], users := [] }

/-- Fixture configuration in which only `RPC_URL` is absent. -/
def cfgMissingRpcUrl : AppConfig :=
  { rpcUrl := none, pumpFunContractAddress := some "0xc0ffee",
    pumpFunInitialBlockNumber := some "57437000" }

/-- Fixture iteration input: checkpoint 100, tip 150, the only event a buy of
an unknown token; no injected faults. -/
def unknownTokenIterInput : IterInput :=
  { store := sampleStoreAt 100, chain := unknownTokenBuyChain,
    networkFails := false, checkpointWriteFails := false, now := 0 }

/-- Fixture iteration input: checkpoint 100, tip 150, no events, no faults. -/
def quietIterInput : IterInput :=
  { store := sampleStoreAt 100, chain := quietChain 150,
    networkFails := false, checkpointWriteFails := false, now := 0 }

/-- Fixture iteration input: checkpoint 100, tip 100 (stall), no faults. -/
def stallIterInput : IterInput :=
  { store := sampleStoreAt 100, chain := quietChain 100,
    networkFails := false, checkpointWriteFails := false, now := 0 }

/-- Fixture iteration input: checkpoint 100, tip 100 (stall), and an injected
checkpoint-write failure. -/
def stallWriteFailInput : IterInput :=
  { store := sampleStoreAt 100, chain := quietChain 100,
    networkFails := false, checkpointWriteFails := true, now := 0 }

/-- Fixture iteration input: checkpoint 100, tip 150, one `TokenCreated`
event whose sender resolves to no stored user; no faults. -/
def createdTokenIterInput : IterInput :=
  { store := sampleStoreAt 100, chain := createdTokenChain,
    networkFails := false, checkpointWriteFails := false, now := 0 }

/-- Fixture iteration input: checkpoint 100, tip 150, with an injected
network (thrown) failure. -/
def networkFailIterInput : IterInput :=
  { store := sampleStoreAt 100, chain := quietChain 150,
    networkFails := true, checkpointWriteFails := false, now := 0 }

/-! ## Lemmas about the stable sort and the tokens map -/

theorem sortInsert_ne_nil (le : α → α → Bool) (a : α) (l : List α) :
    sortInsert le a l ≠ [] := by
  cases l with
  | nil => simp [sortInsert]
  | cons b bs =>
    simp only [sortInsert]
    split <;> simp

theorem stableSort_eq_nil_iff (le : α → α → Bool) (l : List α) :
    stableSort le l = [] ↔ l = [] := by
  cases l with
  | nil => simp [stableSort]
  | cons a as =>
    simp only [stableSort]
    constructor
    · intro h
      exact absurd h (sortInsert_ne_nil _ _ _)
    · intro h
      exact absurd h (List.cons_ne_nil a as)

theorem stableSort_pair (le : α → α → Bool) (a b : α) :
    stableSort le [a, b] = if le a b then [a, b] else [b, a] := by
  simp [stableSort, sortInsert]

theorem mapSet_ne_nil (m : List (String × Nat)) (k : String) (v : Nat) :
    mapSet m k v ≠ [] := by
  by_cases hc : m.any (fun p => p.1 == k) = true
  · cases m with
    | nil => simp at hc
    | cons p ps => simp [mapSet, hc]
  · simp [mapSet, hc]

theorem buildTokensMap_go_ne_nil (trades : List Trade) (ds de : Nat)
    (ts : List Token) (m : List (String × Nat)) (hm : m ≠ []) :
    ts.foldl (fun m t => mapSet m t.id (windowAmountOutSum trades t.id ds de)) m ≠ [] := by
  induction ts generalizing m with
  | nil => simpa using hm
  | cons t ts ih => exact ih _ (mapSet_ne_nil _ _ _)

theorem buildTokensMap_eq_nil_iff (tokens : List Token) (trades : List Trade)
    (ds de : Nat) :
    buildTokensMap tokens trades ds de = [] ↔ tokens = [] := by
  cases tokens with
  | nil => simp [buildTokensMap]
  | cons t ts =>
    constructor
    · intro h
      exact absurd h
        (buildTokensMap_go_ne_nil trades ds de ts _ (mapSet_ne_nil _ _ _))
    · intro h
      exact absurd h (List.cons_ne_nil t ts)

theorem getTokensPage_eq_nil_iff (tokens : List Token) :
    getTokensPage tokens 1000 = [] ↔ tokens = [] := by
  unfold getTokensPage
  rw [List.take_eq_nil_iff]
  simp [stableSort_eq_nil_iff]

theorem dailyWinnerOfPage_eq_none_iff (page : List Token) (trades : List Trade)
    (ds de : Nat) :
    dailyWinnerOfPage page trades ds de = none ↔ page = [] := by
  unfold dailyWinnerOfPage
  rcases hs : stableSort winnerLe (buildTokensMap page trades ds de) with _ | ⟨⟨k, v⟩, rest⟩
  · rw [stableSort_eq_nil_iff, buildTokensMap_eq_nil_iff] at hs
    simp [hs]
  · have hne : page ≠ [] := by
      intro hp
      rw [(buildTokensMap_eq_nil_iff page trades ds de).mpr hp] at hs
      simp [stableSort] at hs
    simp [hne]

theorem buildTokensMap_pair (t1 t2 : Token) (trades : List Trade) (ds de : Nat)
    (hne : t1.id ≠ t2.id) :
    buildTokensMap [t1, t2] trades ds de =
      [(t1.id, windowAmountOutSum trades t1.id ds de),
        (t2.id, windowAmountOutSum trades t2.id ds de)] := by
  have hbe : (t1.id == t2.id) = false := beq_eq_false_iff_ne.mpr hne
  simp [buildTokensMap, mapSet, hbe]

theorem dailyWinnerOfPage_pair (t1 t2 : Token) (trades : List Trade) (ds de : Nat)
    (hne : t1.id ≠ t2.id)
    (hgt : windowAmountOutSum trades t2.id ds de < windowAmountOutSum trades t1.id ds de) :
    dailyWinnerOfPage [t1, t2] trades ds de = some t1.id ∧
      dailyWinnerOfPage [t2, t1] trades ds de = some t1.id := by
  constructor
  · unfold dailyWinnerOfPage
    rw [buildTokensMap_pair t1 t2 trades ds de hne, stableSort_pair]
    simp [winnerLe, hgt]
  · unfold dailyWinnerOfPage
    rw [buildTokensMap_pair t2 t1 trades ds de (Ne.symm hne), stableSort_pair]
    simp [winnerLe, Nat.lt_asymm hgt]

/-! ## Claim theorems: aggregator and configuration -/

/-- Claim C1, counterexample: in a store holding one token (`t1`) and no
trades at all — hence no trade in any window — `getDailyWinnerTokenId`
reports `t1` as winner, not the claimed "no winner" (`null`). -/
theorem dailyWinner_one_token_no_trades :
    getDailyWinnerTokenId
      { indexerState := none, tokens := [sampleToken1], trades := [], users := [] }
      0 10 = some "t1" := by
  decide

/-- Claim C1, amended: `getDailyWinnerTokenId` reports "no winner" (`null`)
exactly when the token table is empty; when tokens exist but none has a
trade in the window, some token id (with zero summed volume) is still
reported. -/
theorem dailyWinner_none_iff_no_tokens (store : Store) (dateStart dateEnd : Nat) :
    getDailyWinnerTokenId store dateStart dateEnd = none ↔ store.tokens = [] := by
  unfold getDailyWinnerTokenId
  rw [dailyWinnerOfPage_eq_none_iff, getTokensPage_eq_nil_iff]

/-- Claim C2, counterexample: with `RPC_URL` absent but the other two config
values present, the constructor's guards all pass and startup proceeds to
indexing — the process does not terminate, contradicting "all three are
mandatory". -/
theorem constructorCheck_missing_rpc_url_passes :
    cfgMissingRpcUrl.rpcUrl = none ∧ constructorCheck cfgMissingRpcUrl = none := by
  decide

/-- Claim C2, amended: exactly two of the three configuration inputs are
mandatory at startup — the contract address and the initial block height;
startup proceeds if and only if both are truthy, and the ledger endpoint URL
(`RPC_URL`) is never validated. -/
theorem constructorCheck_none_iff (cfg : AppConfig) :
    constructorCheck cfg = none ↔
      truthyStr cfg.pumpFunContractAddress = true ∧
        truthyStr cfg.pumpFunInitialBlockNumber = true := by
  unfold constructorCheck
  cases h1 : truthyStr cfg.pumpFunContractAddress <;>
    cases h2 : truthyStr cfg.pumpFunInitialBlockNumber <;> simp [h1, h2]

/-- Claim C8: over any fixed set of trades and a token table of two tokens,
the daily winner aggregation sums each token's `amountOut` values as an
exact integer (`windowAmountOutSum`) and reports the token whose sum is
strictly larger. -/
theorem two_token_winner_largest_sum (store : Store) (t1 t2 : Token)
    (dateStart dateEnd : Nat) (hst : store.tokens = [t1, t2]) (hne : t1.id ≠ t2.id)
    (hgt : windowAmountOutSum store.trades t2.id dateStart dateEnd <
      windowAmountOutSum store.trades t1.id dateStart dateEnd) :
    getDailyWinnerTokenId store dateStart dateEnd = some t1.id := by
  have hp := dailyWinnerOfPage_pair t1 t2 store.trades dateStart dateEnd hne hgt
  unfold getDailyWinnerTokenId getTokensPage
  rw [hst, stableSort_pair]
  split
  · rw [List.take_of_length_le (by norm_num)]
    exact hp.1
  · rw [List.take_of_length_le (by norm_num)]
    exact hp.2

/-- Witness for C8: concrete two-token store in which `t1`'s summed
`amountOut` (11) strictly exceeds `t2`'s (9) inside the window `[0, 10]`,
and the reported winner is `t1`. -/
theorem two_token_winner_largest_sum_witness :
    winnerStore.tokens = [sampleToken1, sampleToken2] ∧
      sampleToken1.id ≠ sampleToken2.id ∧
      windowAmountOutSum winnerStore.trades sampleToken2.id 0 10 <
        windowAmountOutSum winnerStore.trades sampleToken1.id 0 10 ∧
      getDailyWinnerTokenId winnerStore 0 10 = some sampleToken1.id :=
  ⟨rfl, by decide, by decide,
    two_token_winner_largest_sum winnerStore sampleToken1 sampleToken2 0 10 rfl
      (by decide) (by decide)⟩

/-! ## Lemmas about trade-event processing -/

theorem processTradeEvents_exit_iff (tokens : List Token) (events : List SwapEvent)
    (ty : TradeType) (now : Nat) :
    (processTradeEvents tokens events ty now).2 = false ↔
      events.all (swapResolves tokens) = true := by
  induction events with
  | nil => simp [processTradeEvents]
  | cons ev rest ih =>
    cases hf : findTokenByAddress tokens ev.token with
    | none => simp [processTradeEvents, hf, swapResolves]
    | some tok => simp [processTradeEvents, hf, swapResolves, ih]

theorem processTradeEvents_type (tokens : List Token) (events : List SwapEvent)
    (ty : TradeType) (now : Nat) :
    ∀ tr ∈ (processTradeEvents tokens events ty now).1, tr.type = ty := by
  induction events with
  | nil =>
    intro tr htr
    simp [processTradeEvents] at htr
  | cons ev rest ih =>
    intro tr htr
    cases hf : findTokenByAddress tokens ev.token with
    | none => simp [processTradeEvents, hf] at htr
    | some tok =>
      simp only [processTradeEvents, hf, List.mem_cons] at htr
      rcases htr with h | h
      · subst h
        rfl
      · exact ih tr h

/-! ## Field lemmas about the iteration epilogue -/

theorem finishIteration_writes (inp : IterInput) (store : Store)
    (writes : List WriteRec) (scanned : Option (Nat × Nat)) (delay toBlock : Nat) :
    (finishIteration inp store writes scanned delay toBlock).writes = writes := by
  unfold finishIteration
  split <;> rfl

theorem finishIteration_delaySec (inp : IterInput) (store : Store)
    (writes : List WriteRec) (scanned : Option (Nat × Nat)) (delay toBlock : Nat) :
    (finishIteration inp store writes scanned delay toBlock).delaySec = delay := by
  unfold finishIteration
  split <;> rfl

theorem finishIteration_scanned (inp : IterInput) (store : Store)
    (writes : List WriteRec) (scanned : Option (Nat × Nat)) (delay toBlock : Nat) :
    (finishIteration inp store writes scanned delay toBlock).scanned = scanned := by
  unfold finishIteration
  split <;> rfl

theorem finishIteration_writeAttempted (inp : IterInput) (store : Store)
    (writes : List WriteRec) (scanned : Option (Nat × Nat)) (delay toBlock : Nat) :
    (finishIteration inp store writes scanned delay toBlock).writeAttempted = true := by
  unfold finishIteration
  split <;> rfl

theorem finishIteration_writtenBlock (inp : IterInput) (store : Store)
    (writes : List WriteRec) (scanned : Option (Nat × Nat)) (delay toBlock : Nat) :
    (finishIteration inp store writes scanned delay toBlock).writtenBlock = some toBlock := by
  unfold finishIteration
  split <;> rfl

theorem finishIteration_tradeExit (inp : IterInput) (store : Store)
    (writes : List WriteRec) (scanned : Option (Nat × Nat)) (delay toBlock : Nat) :
    (finishIteration inp store writes scanned delay toBlock).tradeExit = false := by
  unfold finishIteration
  split <;> rfl

theorem finishIteration_writeFails_exited (inp : IterInput) (store : Store)
    (writes : List WriteRec) (scanned : Option (Nat × Nat)) (delay toBlock : Nat)
    (hcp : inp.checkpointWriteFails = true) :
    (finishIteration inp store writes scanned delay toBlock).exited = some 1 := by
  unfold finishIteration
  rw [hcp]
  rfl

theorem finishIteration_writeFails_store (inp : IterInput) (store : Store)
    (writes : List WriteRec) (scanned : Option (Nat × Nat)) (delay toBlock : Nat)
    (hcp : inp.checkpointWriteFails = true) :
    (finishIteration inp store writes scanned delay toBlock).store = store := by
  unfold finishIteration
  rw [hcp]
  rfl

theorem finishIteration_ok (inp : IterInput) (store : Store)
    (writes : List WriteRec) (scanned : Option (Nat × Nat)) (delay toBlock : Nat)
    (h : Nat) (hcp : inp.checkpointWriteFails = false)
    (hst : store.indexerState = some h) :
    finishIteration inp store writes scanned delay toBlock =
      { store := { store with indexerState := some toBlock }, writes := writes,
        scanned := scanned, delaySec := delay, exited := none, tradeExit := false,
        writeAttempted := true, writtenBlock := some toBlock } := by
  unfold finishIteration
  rw [hcp, hst]
  rfl

/-! ## Branch lemmas for the iteration -/

theorem iteration_networkFails (inp : IterInput) (h : Nat)
    (hst : inp.store.indexerState = some h) (hnf : inp.networkFails = true) :
    eventsTrackingIteration inp = finishIteration inp inp.store [] none 30 h := by
  unfold eventsTrackingIteration
  simp [hst, hnf]

theorem iteration_stall (inp : IterInput) (h : Nat)
    (hst : inp.store.indexerState = some h) (hnf : inp.networkFails = false)
    (htip : inp.chain.blockNumber ≤ h + 1) :
    eventsTrackingIteration inp = finishIteration inp inp.store [] none 5 h := by
  unfold eventsTrackingIteration
  simp only [hst, hnf, Option.getD_some, Bool.false_eq_true, if_false]
  have hguard : ¬ (1 ≤ (if h + 1 + blocksIndexingRange - 1 > inp.chain.blockNumber
      then inp.chain.blockNumber else h + 1 + blocksIndexingRange - 1) - (h + 1)) := by
    unfold blocksIndexingRange
    split <;> omega
  rw [if_neg hguard]
  simp

theorem iteration_fetch (inp : IterInput) (h : Nat)
    (hst : inp.store.indexerState = some h) (hnf : inp.networkFails = false)
    (htip : h + 2 ≤ inp.chain.blockNumber) :
    eventsTrackingIteration inp =
      fetchAndPersist inp (h + 1)
        (min (h + blocksIndexingRange) inp.chain.blockNumber) := by
  unfold eventsTrackingIteration
  simp only [hst, hnf, Option.getD_some, Bool.false_eq_true, if_false]
  have htb : (if h + 1 + blocksIndexingRange - 1 > inp.chain.blockNumber
      then inp.chain.blockNumber else h + 1 + blocksIndexingRange - 1)
      = min (h + blocksIndexingRange) inp.chain.blockNumber := by
    rw [Nat.min_def]
    unfold blocksIndexingRange
    split <;> split <;> omega
  rw [htb]
  have hguard : 1 ≤ min (h + blocksIndexingRange) inp.chain.blockNumber - (h + 1) := by
    rw [Nat.min_def]
    unfold blocksIndexingRange
    split <;> omega
  rw [if_pos hguard]

/-! ## Phase ordering of persisted rows within a batch -/

theorem pairwise_le_of_const (l : List WriteRec) (c : Nat)
    (hl : ∀ a ∈ l, phaseRank a = c) :
    l.Pairwise (fun a b => phaseRank a ≤ phaseRank b) := by
  induction l with
  | nil => exact List.Pairwise.nil
  | cons a as ih =>
    refine List.Pairwise.cons ?_ (ih ?_)
    · intro b hb
      have h1 := hl a (List.mem_cons_self a as)
      have h2 := hl b (List.mem_cons_of_mem a hb)
      omega
    · intro b hb
      exact hl b (List.mem_cons_of_mem a hb)

theorem pairwise_phases_append (A B : List WriteRec) (ca cb : Nat) (hab : ca ≤ cb)
    (hA : ∀ a ∈ A, phaseRank a = ca) (hB : ∀ a ∈ B, phaseRank a = cb) :
    (A ++ B).Pairwise (fun a b => phaseRank a ≤ phaseRank b) := by
  rw [List.pairwise_append]
  refine ⟨pairwise_le_of_const A ca hA, pairwise_le_of_const B cb hB, ?_⟩
  intro a ha b hb
  have h1 := hA a ha
  have h2 := hB b hb
  omega

theorem pairwise_three_phases (A B C : List WriteRec)
    (hA : ∀ a ∈ A, phaseRank a = 0) (hB : ∀ a ∈ B, phaseRank a = 1)
    (hC : ∀ a ∈ C, phaseRank a = 2) :
    (A ++ B ++ C).Pairwise (fun a b => phaseRank a ≤ phaseRank b) := by
  rw [List.pairwise_append]
  refine ⟨pairwise_phases_append A B 0 1 (by omega) hA hB,
    pairwise_le_of_const C 2 hC, ?_⟩
  intro a ha b hb
  have h2 := hC b hb
  rcases List.mem_append.mp ha with h | h
  · have h1 := hA a h
    omega
  · have h1 := hB a h
    omega

theorem phaseRank_tokenWritesOf (inp : IterInput) (fromBlock toBlock : Nat) :
    ∀ a ∈ tokenWritesOf inp fromBlock toBlock, phaseRank a = 0 := by
  intro a ha
  simp only [tokenWritesOf] at ha
  rcases List.mem_map.mp ha with ⟨t, _, rfl⟩
  rfl

theorem phaseRank_buyWrites (inp : IterInput) (fromBlock toBlock : Nat) :
    ∀ a ∈ (buysOf inp fromBlock toBlock).1.map WriteRec.tradeRow, phaseRank a = 1 := by
  intro a ha
  rcases List.mem_map.mp ha with ⟨tr, htr, rfl⟩
  simp only [buysOf] at htr
  have ht := processTradeEvents_type _ _ TradeType.buy _ tr htr
  simp [phaseRank, ht]

theorem phaseRank_sellWrites (inp : IterInput) (fromBlock toBlock : Nat) :
    ∀ a ∈ (sellsOf inp fromBlock toBlock).1.map WriteRec.tradeRow, phaseRank a = 2 := by
  intro a ha
  rcases List.mem_map.mp ha with ⟨tr, htr, rfl⟩
  simp only [sellsOf] at htr
  have ht := processTradeEvents_type _ _ TradeType.sell _ tr htr
  simp [phaseRank, ht]

theorem fetchAndPersist_writes_ordered (inp : IterInput) (fromBlock toBlock : Nat) :
    (fetchAndPersist inp fromBlock toBlock).writes.Pairwise
      (fun a b => phaseRank a ≤ phaseRank b) := by
  simp only [fetchAndPersist]
  split
  · simp only [tradeExitResult]
    exact pairwise_phases_append _ _ 0 1 (by omega)
      (phaseRank_tokenWritesOf inp fromBlock toBlock)
      (phaseRank_buyWrites inp fromBlock toBlock)
  · split
    · simp only [tradeExitResult]
      exact pairwise_three_phases _ _ _
        (phaseRank_tokenWritesOf inp fromBlock toBlock)
        (phaseRank_buyWrites inp fromBlock toBlock)
        (phaseRank_sellWrites inp fromBlock toBlock)
    · rw [finishIteration_writes]
      exact pairwise_three_phases _ _ _
        (phaseRank_tokenWritesOf inp fromBlock toBlock)
        (phaseRank_buyWrites inp fromBlock toBlock)
        (phaseRank_sellWrites inp fromBlock toBlock)

/-- Claim C5: within every batch, persisted rows appear in the fixed phase
order — all token-creation inserts first (phase 0), then all buy trades
(phase 1), then all sell trades (phase 2); in particular a Token row created
in the batch is persisted before any Trade row, also on iterations that exit
mid-batch.  Stated as: the iteration's write trace is sorted by `phaseRank`. -/
theorem batch_writes_phase_ordered (inp : IterInput) :
    (eventsTrackingIteration inp).writes.Pairwise
      (fun a b => phaseRank a ≤ phaseRank b) := by
  simp only [eventsTrackingIteration]
  split
  · rw [finishIteration_writes]
    exact List.Pairwise.nil
  · split <;> split
    all_goals
      first
      | exact fetchAndPersist_writes_ordered inp _ _
      | (rw [finishIteration_writes]; exact List.Pairwise.nil)

/-! ## Claim theorems: range computation and checkpoint advance -/

/-- Claim C3: for every checkpoint `h` and chain tip `t ≥ h + 2`, one
successful iteration (no thrown error, no exit) scans exactly the range
`[h+1, min (h + blocksIndexingRange) t]` and sets the new checkpoint to
exactly `min (h + blocksIndexingRange) t`, with `blocksIndexingRange =
1000`. -/
theorem checkpoint_advance_success (inp : IterInput) (h : Nat)
    (hst : inp.store.indexerState = some h) (hnf : inp.networkFails = false)
    (htip : h + 2 ≤ inp.chain.blockNumber)
    (hok : (eventsTrackingIteration inp).exited = none) :
    (eventsTrackingIteration inp).scanned =
        some (h + 1, min (h + blocksIndexingRange) inp.chain.blockNumber) ∧
      (eventsTrackingIteration inp).store.indexerState =
        some (min (h + blocksIndexingRange) inp.chain.blockNumber) := by
  rw [iteration_fetch inp h hst hnf htip] at hok ⊢
  simp only [fetchAndPersist] at hok ⊢
  cases hb : (buysOf inp (h + 1) (min (h + blocksIndexingRange) inp.chain.blockNumber)).2 with
  | true =>
    simp [hb, tradeExitResult] at hok
  | false =>
    simp only [hb, Bool.false_eq_true, if_false] at hok ⊢
    cases hs : (sellsOf inp (h + 1) (min (h + blocksIndexingRange) inp.chain.blockNumber)).2 with
    | true =>
      simp [hs, tradeExitResult] at hok
    | false =>
      simp only [hs, Bool.false_eq_true, if_false] at hok ⊢
      have hcp : inp.checkpointWriteFails = false := by
        cases hq : inp.checkpointWriteFails
        · rfl
        · rw [finishIteration_writeFails_exited _ _ _ _ _ _ hq] at hok
          simp at hok
      rw [finishIteration_ok _ _ _ _ _ _ h hcp (by simpa using hst)]
      exact ⟨rfl, rfl⟩

/-- Witness for C3: the concrete scenario of the spec — checkpoint 100,
chain tip 150 — scans `[101, 150]` and advances the checkpoint to 150
(`min (100 + 1000) 150 = 150`). -/
theorem checkpoint_advance_success_witness :
    quietIterInput.store.indexerState = some 100 ∧
      quietIterInput.networkFails = false ∧
      100 + 2 ≤ quietIterInput.chain.blockNumber ∧
      (eventsTrackingIteration quietIterInput).exited = none ∧
      ((eventsTrackingIteration quietIterInput).scanned =
          some (100 + 1, min (100 + blocksIndexingRange) quietIterInput.chain.blockNumber) ∧
        (eventsTrackingIteration quietIterInput).store.indexerState =
          some (min (100 + blocksIndexingRange) quietIterInput.chain.blockNumber)) :=
  ⟨rfl, rfl, by decide, by decide,
    checkpoint_advance_success quietIterInput 100 rfl rfl (by decide) (by decide)⟩

/-- Claim C7: when the computed range has fewer than two new blocks
(`toBlock - fromBlock < 1`, e.g. checkpoint 100 and tip 100), the iteration
stalls: the checkpoint value is unchanged, the short 5-second delay is
taken, and no events are fetched or rows persisted. -/
theorem stall_iteration_behavior (inp : IterInput) (h : Nat)
    (hst : inp.store.indexerState = some h) (hnf : inp.networkFails = false)
    (hcp : inp.checkpointWriteFails = false)
    (hrange : min (h + blocksIndexingRange) inp.chain.blockNumber - (h + 1) < 1) :
    (eventsTrackingIteration inp).store.indexerState = some h ∧
      (eventsTrackingIteration inp).delaySec = 5 ∧
      (eventsTrackingIteration inp).scanned = none ∧
      (eventsTrackingIteration inp).writes = [] ∧
      (eventsTrackingIteration inp).exited = none := by
  have htip : inp.chain.blockNumber ≤ h + 1 := by
    rw [Nat.min_def] at hrange
    unfold blocksIndexingRange at hrange
    split at hrange <;> omega
  rw [iteration_stall inp h hst hnf htip]
  rw [finishIteration_ok _ _ _ _ _ _ h hcp hst]
  exact ⟨rfl, rfl, rfl, rfl, rfl⟩

/-- Witness for C7: the concrete scenario of the spec — checkpoint 100,
chain tip 100 — stalls with a 5-second delay and the checkpoint stays
100. -/
theorem stall_iteration_behavior_witness :
    stallIterInput.store.indexerState = some 100 ∧
      stallIterInput.networkFails = false ∧
      stallIterInput.checkpointWriteFails = false ∧
      min (100 + blocksIndexingRange) stallIterInput.chain.blockNumber - (100 + 1) < 1 ∧
      ((eventsTrackingIteration stallIterInput).store.indexerState = some 100 ∧
        (eventsTrackingIteration stallIterInput).delaySec = 5 ∧
        (eventsTrackingIteration stallIterInput).scanned = none ∧
        (eventsTrackingIteration stallIterInput).writes = [] ∧
        (eventsTrackingIteration stallIterInput).exited = none) :=
  ⟨rfl, rfl, rfl, by decide,
    stall_iteration_behavior stallIterInput 100 rfl rfl rfl (by decide)⟩

/-- Claim C4: when some buy or sell event of the batch references a token
address that does not resolve in the store (even after this batch's own
creations), the iteration exits the process with code 1: the checkpoint is
not advanced (so never past the batch's range) and the checkpoint write is
never reached — the run halts rather than silently dropping the trade. -/
theorem unknown_token_halts (inp : IterInput) (h : Nat)
    (hst : inp.store.indexerState = some h) (hnf : inp.networkFails = false)
    (htip : h + 2 ≤ inp.chain.blockNumber)
    (hbad : ((inp.chain.tokenBuyEvents (h + 1)
            (min (h + blocksIndexingRange) inp.chain.blockNumber)).all
          (swapResolves (batchTokens inp (h + 1)
            (min (h + blocksIndexingRange) inp.chain.blockNumber)))
        && (inp.chain.tokenSellEvents (h + 1)
            (min (h + blocksIndexingRange) inp.chain.blockNumber)).all
          (swapResolves (batchTokens inp (h + 1)
            (min (h + blocksIndexingRange) inp.chain.blockNumber)))) = false) :
    (eventsTrackingIteration inp).exited = some 1 ∧
      (eventsTrackingIteration inp).store.indexerState = some h ∧
      (eventsTrackingIteration inp).writeAttempted = false := by
  rw [iteration_fetch inp h hst hnf htip]
  simp only [fetchAndPersist]
  cases hb : (buysOf inp (h + 1) (min (h + blocksIndexingRange) inp.chain.blockNumber)).2 with
  | true =>
    simp only [hb, if_true]
    exact ⟨rfl, by simp [tradeExitResult, hst], rfl⟩
  | false =>
    have hball : (inp.chain.tokenBuyEvents (h + 1)
        (min (h + blocksIndexingRange) inp.chain.blockNumber)).all
          (swapResolves (batchTokens inp (h + 1)
            (min (h + blocksIndexingRange) inp.chain.blockNumber))) = true := by
      refine (processTradeEvents_exit_iff _ _ TradeType.buy inp.now).mp ?_
      simpa [buysOf] using hb
    rw [hball, Bool.true_and] at hbad
    have hs : (sellsOf inp (h + 1) (min (h + blocksIndexingRange) inp.chain.blockNumber)).2 = true := by
      cases hq : (sellsOf inp (h + 1) (min (h + blocksIndexingRange) inp.chain.blockNumber)).2
      · have hall := (processTradeEvents_exit_iff _ _ TradeType.sell inp.now).mp
          (by simpa [sellsOf] using hq)
        rw [hall] at hbad
        exact Bool.noConfusion hbad
      · rfl
    simp only [hb, Bool.false_eq_true, if_false, hs, if_true]
    exact ⟨rfl, by simp [tradeExitResult, hst], rfl⟩

/-- Witness for C4: checkpoint 100, tip 150, one buy event whose token
address `0xdead` resolves to no Token row — the iteration exits with code 1,
the checkpoint stays 100, and the checkpoint write is never invoked. -/
theorem unknown_token_halts_witness :
    unknownTokenIterInput.store.indexerState = some 100 ∧
      unknownTokenIterInput.networkFails = false ∧
      100 + 2 ≤ unknownTokenIterInput.chain.blockNumber ∧
      ((unknownTokenIterInput.chain.tokenBuyEvents (100 + 1)
            (min (100 + blocksIndexingRange) unknownTokenIterInput.chain.blockNumber)).all
          (swapResolves (batchTokens unknownTokenIterInput (100 + 1)
            (min (100 + blocksIndexingRange) unknownTokenIterInput.chain.blockNumber)))
        && (unknownTokenIterInput.chain.tokenSellEvents (100 + 1)
            (min (100 + blocksIndexingRange) unknownTokenIterInput.chain.blockNumber)).all
          (swapResolves (batchTokens unknownTokenIterInput (100 + 1)
            (min (100 + blocksIndexingRange) unknownTokenIterInput.chain.blockNumber)))) = false ∧
      ((eventsTrackingIteration unknownTokenIterInput).exited = some 1 ∧
        (eventsTrackingIteration unknownTokenIterInput).store.indexerState = some 100 ∧
        (eventsTrackingIteration unknownTokenIterInput).writeAttempted = false) :=
  ⟨rfl, rfl, by decide, by decide,
    unknown_token_halts unknownTokenIterInput 100 rfl rfl (by decide) (by decide)⟩

/-! ## Checkpoint monotonicity and failure handling -/

theorem finishIteration_indexerState_cases (inp : IterInput) (store : Store)
    (writes : List WriteRec) (scanned : Option (Nat × Nat)) (delay toBlock : Nat)
    (h : Nat) (hst : store.indexerState = some h) :
    (finishIteration inp store writes scanned delay toBlock).store.indexerState = some h ∨
      (finishIteration inp store writes scanned delay toBlock).store.indexerState
        = some toBlock := by
  unfold finishIteration
  split
  · left
    exact hst
  · right
    rfl

theorem finishIteration_getD_height (inp : IterInput) (store : Store)
    (writes : List WriteRec) (scanned : Option (Nat × Nat)) (delay toBlock : Nat)
    (h : Nat) (hst : store.indexerState = some h) (hle : h ≤ toBlock) :
    h ≤ (finishIteration inp store writes scanned delay toBlock).store.indexerState.getD h := by
  rcases finishIteration_indexerState_cases inp store writes scanned delay toBlock h hst
    with hc | hc
  · rw [hc]
    exact Nat.le_refl h
  · rw [hc]
    simpa using hle

/-- Claim C6, counterexample: at a concrete input whose only failure is a
classifier fatal error (a buy of an unknown token), the iteration takes no
30-second delay — it exits the process immediately (code 1), so no next
iteration re-scans the range.  This falsifies the claim's "a 30-second delay
is taken, and the next iteration re-derives its starting block" for the
classifier-fatal failure class. -/
theorem classifier_fatal_no_retry_delay :
    (eventsTrackingIteration unknownTokenIterInput).exited = some 1 ∧
      (eventsTrackingIteration unknownTokenIterInput).delaySec = 0 ∧
      ¬ (eventsTrackingIteration unknownTokenIterInput).delaySec = 30 := by
  decide

/-- Claim C6, amended: the checkpoint height is monotonically non-decreasing
across every iteration.  On a thrown failure (network error) the checkpoint
is unchanged, the 30-second delay is taken and nothing was scanned, so the
next iteration re-derives the same range; on a classifier fatal error
(unknown trade token) the checkpoint is also unchanged but the process exits
immediately with code 1 and no delay — there is no retrying next
iteration. -/
theorem checkpoint_monotone_failure_paths (inp : IterInput) (h : Nat)
    (hst : inp.store.indexerState = some h) :
    (h ≤ (eventsTrackingIteration inp).store.indexerState.getD h) ∧
      (inp.networkFails = true → inp.checkpointWriteFails = false →
        (eventsTrackingIteration inp).store.indexerState = some h ∧
          (eventsTrackingIteration inp).delaySec = 30 ∧
          (eventsTrackingIteration inp).scanned = none) ∧
      ((eventsTrackingIteration inp).tradeExit = true →
        (eventsTrackingIteration inp).store.indexerState = some h ∧
          (eventsTrackingIteration inp).exited = some 1 ∧
          (eventsTrackingIteration inp).delaySec = 0) := by
  by_cases hnf : inp.networkFails = true
  · rw [iteration_networkFails inp h hst hnf]
    refine ⟨finishIteration_getD_height _ _ _ _ _ _ h hst (Nat.le_refl h), ?_, ?_⟩
    · intro _ hcp
      rw [finishIteration_ok _ _ _ _ _ _ h hcp hst]
      exact ⟨rfl, rfl, rfl⟩
    · intro h3
      rw [finishIteration_tradeExit] at h3
      exact Bool.noConfusion h3
  · rw [Bool.not_eq_true] at hnf
    by_cases htip : inp.chain.blockNumber ≤ h + 1
    · rw [iteration_stall inp h hst hnf htip]
      refine ⟨finishIteration_getD_height _ _ _ _ _ _ h hst (Nat.le_refl h), ?_, ?_⟩
      · intro h21 _
        rw [h21] at hnf
        exact Bool.noConfusion hnf
      · intro h3
        rw [finishIteration_tradeExit] at h3
        exact Bool.noConfusion h3
    · have htip2 : h + 2 ≤ inp.chain.blockNumber := by omega
      rw [iteration_fetch inp h hst hnf htip2]
      simp only [fetchAndPersist]
      cases hb : (buysOf inp (h + 1) (min (h + blocksIndexingRange) inp.chain.blockNumber)).2 with
      | true =>
        simp only [hb, if_true]
        refine ⟨by simp [tradeExitResult, hst], ?_, ?_⟩
        · intro h21 _
          rw [h21] at hnf
          exact Bool.noConfusion hnf
        · intro _
          exact ⟨by simp [tradeExitResult, hst], rfl, rfl⟩
      | false =>
        simp only [hb, Bool.false_eq_true, if_false]
        cases hs : (sellsOf inp (h + 1) (min (h + blocksIndexingRange) inp.chain.blockNumber)).2 with
        | true =>
          simp only [hs, if_true]
          refine ⟨by simp [tradeExitResult, hst], ?_, ?_⟩
          · intro h21 _
            rw [h21] at hnf
            exact Bool.noConfusion hnf
          · intro _
            exact ⟨by simp [tradeExitResult, hst], rfl, rfl⟩
        | false =>
          simp only [hs, Bool.false_eq_true, if_false]
          have hle : h ≤ min (h + blocksIndexingRange) inp.chain.blockNumber :=
            le_min (by omega) (by omega)
          refine ⟨finishIteration_getD_height _ _ _ _ _ _ h (by simpa using hst) hle, ?_, ?_⟩
          · intro h21 _
            rw [h21] at hnf
            exact Bool.noConfusion hnf
          · intro h3
            rw [finishIteration_tradeExit] at h3
            exact Bool.noConfusion h3

/-- Witness for the amended C6: a concrete iteration with an injected network
failure at checkpoint 100 keeps the checkpoint at 100, takes the 30-second
delay, and scans nothing. -/
theorem checkpoint_monotone_failure_paths_witness :
    networkFailIterInput.store.indexerState = some 100 ∧
      100 ≤ (eventsTrackingIteration networkFailIterInput).store.indexerState.getD 100 ∧
      ((eventsTrackingIteration networkFailIterInput).store.indexerState = some 100 ∧
        (eventsTrackingIteration networkFailIterInput).delaySec = 30 ∧
        (eventsTrackingIteration networkFailIterInput).scanned = none) :=
  ⟨rfl, (checkpoint_monotone_failure_paths networkFailIterInput 100 rfl).1,
    (checkpoint_monotone_failure_paths networkFailIterInput 100 rfl).2.1 rfl rfl⟩

/-- Claim C9: a `TokenCreated` event whose transaction sender does not
resolve to a stored `UserAccount` (lower-cased address lookup returns
nothing) is still processed: the assembled Token row carries an absent
(`none`) creator reference, and its insert still appears in the iteration's
write trace — the batch does not fail. -/
theorem token_created_unknown_creator_proceeds (inp : IterInput) (h : Nat)
    (ev : CreatedEvent) (hst : inp.store.indexerState = some h)
    (hnf : inp.networkFails = false) (htip : h + 2 ≤ inp.chain.blockNumber)
    (hev : ev ∈ inp.chain.tokenCreatedEvents (h + 1)
      (min (h + blocksIndexingRange) inp.chain.blockNumber))
    (huser : inp.store.users.find?
      (fun a => a == (inp.chain.txFrom ev.transactionHash).toLower) = none) :
    (processTokenCreated inp.chain inp.store.users ev).user = none ∧
      WriteRec.tokenRow (processTokenCreated inp.chain inp.store.users ev) ∈
        (eventsTrackingIteration inp).writes := by
  refine ⟨?_, ?_⟩
  · simp only [processTokenCreated]
    exact huser
  · rw [iteration_fetch inp h hst hnf htip]
    simp only [fetchAndPersist]
    have hmem : WriteRec.tokenRow (processTokenCreated inp.chain inp.store.users ev) ∈
        tokenWritesOf inp (h + 1) (min (h + blocksIndexingRange) inp.chain.blockNumber) := by
      simp only [tokenWritesOf]
      exact List.mem_map_of_mem _ (List.mem_map_of_mem _ hev)
    split
    · simp only [tradeExitResult]
      exact List.mem_append_left _ hmem
    · split
      · simp only [tradeExitResult]
        exact List.mem_append_left _ (List.mem_append_left _ hmem)
      · rw [finishIteration_writes]
        exact List.mem_append_left _ (List.mem_append_left _ hmem)

/-- Witness for C9: one concrete `TokenCreated` event whose sender address
is in no stored `UserAccount` — the Token row is persisted with `user =
none`. -/
theorem token_created_unknown_creator_proceeds_witness :
    createdTokenIterInput.store.indexerState = some 100 ∧
      createdTokenIterInput.networkFails = false ∧
      100 + 2 ≤ createdTokenIterInput.chain.blockNumber ∧
      sampleCreatedEvent ∈ createdTokenIterInput.chain.tokenCreatedEvents (100 + 1)
        (min (100 + blocksIndexingRange) createdTokenIterInput.chain.blockNumber) ∧
      createdTokenIterInput.store.users.find?
        (fun a => a ==
          (createdTokenIterInput.chain.txFrom sampleCreatedEvent.transactionHash).toLower)
        = none ∧
      ((processTokenCreated createdTokenIterInput.chain
          createdTokenIterInput.store.users sampleCreatedEvent).user = none ∧
        WriteRec.tokenRow (processTokenCreated createdTokenIterInput.chain
            createdTokenIterInput.store.users sampleCreatedEvent) ∈
          (eventsTrackingIteration createdTokenIterInput).writes) :=
  ⟨rfl, rfl, by decide, by decide, rfl,
    token_created_unknown_creator_proceeds createdTokenIterInput 100 sampleCreatedEvent
      rfl rfl (by decide) (by decide) rfl⟩

/-- Claim C10: every iteration that reaches its end (that is, does not exit
mid-batch on an unknown trade token) invokes the checkpoint-store write
unconditionally — also on stall and failed iterations, where the value
written equals the previous checkpoint height — and a failure of that write
exits the process with code 1 even when no new blocks were indexed. -/
theorem checkpoint_write_unconditional (inp : IterInput) (h : Nat)
    (hst : inp.store.indexerState = some h)
    (hnx : (eventsTrackingIteration inp).tradeExit = false) :
    (eventsTrackingIteration inp).writeAttempted = true ∧
      (inp.checkpointWriteFails = true → (eventsTrackingIteration inp).exited = some 1) ∧
      ((inp.networkFails = true ∨ inp.chain.blockNumber ≤ h + 1) →
        (eventsTrackingIteration inp).writtenBlock = some h) := by
  by_cases hnf : inp.networkFails = true
  · rw [iteration_networkFails inp h hst hnf]
    exact ⟨finishIteration_writeAttempted _ _ _ _ _ _,
      fun hcp => finishIteration_writeFails_exited _ _ _ _ _ _ hcp,
      fun _ => finishIteration_writtenBlock _ _ _ _ _ _⟩
  · rw [Bool.not_eq_true] at hnf
    by_cases htip : inp.chain.blockNumber ≤ h + 1
    · rw [iteration_stall inp h hst hnf htip]
      exact ⟨finishIteration_writeAttempted _ _ _ _ _ _,
        fun hcp => finishIteration_writeFails_exited _ _ _ _ _ _ hcp,
        fun _ => finishIteration_writtenBlock _ _ _ _ _ _⟩
    · have htip2 : h + 2 ≤ inp.chain.blockNumber := by omega
      rw [iteration_fetch inp h hst hnf htip2] at hnx ⊢
      simp only [fetchAndPersist] at hnx ⊢
      cases hb : (buysOf inp (h + 1) (min (h + blocksIndexingRange) inp.chain.blockNumber)).2 with
      | true =>
        simp [hb, tradeExitResult] at hnx
      | false =>
        simp only [hb, Bool.false_eq_true, if_false] at hnx ⊢
        cases hs : (sellsOf inp (h + 1) (min (h + blocksIndexingRange) inp.chain.blockNumber)).2 with
        | true =>
          simp [hs, tradeExitResult] at hnx
        | false =>
          simp only [hs, Bool.false_eq_true, if_false]
          refine ⟨finishIteration_writeAttempted _ _ _ _ _ _,
            fun hcp => finishIteration_writeFails_exited _ _ _ _ _ _ hcp, ?_⟩
          intro hdis
          rcases hdis with hd | hd
          · rw [hd] at hnf
            exact Bool.noConfusion hnf
          · omega

/-- Witness for C10: a stall iteration (checkpoint 100, tip 100 — nothing
new to index) with an injected checkpoint-write failure: the write is still
attempted with the unchanged value 100, and its failure exits the process
with code 1. -/
theorem checkpoint_write_unconditional_witness :
    stallWriteFailInput.store.indexerState = some 100 ∧
      (eventsTrackingIteration stallWriteFailInput).tradeExit = false ∧
      ((eventsTrackingIteration stallWriteFailInput).writeAttempted = true ∧
        (eventsTrackingIteration stallWriteFailInput).exited = some 1 ∧
        (eventsTrackingIteration stallWriteFailInput).writtenBlock = some 100) :=
  ⟨rfl, by decide,
    (checkpoint_write_unconditional stallWriteFailInput 100 rfl (by decide)).1,
    (checkpoint_write_unconditional stallWriteFailInput 100 rfl (by decide)).2.1 rfl,
    (checkpoint_write_unconditional stallWriteFailInput 100 rfl (by decide)).2.2
      (Or.inr (by decide))⟩

end PumpFun
